import Mathlib

/-!
Verification of the physics/optimization core of a DeepInverse-style imaging
library against its sources.

The development shallowly embeds:
  * `src/deepinv/models/epll.py` (class `EPLL`: half-quadratic-splitting
    reconstruction with a Gaussian-mixture patch prior),
  * `src/deepinv/diffops/physics/compressed_sensing.py` (the `hadamard` and
    `dct1` fast transforms and the `CompressedSensing` operator with its
    `power_method` and adjoint),
  * `src/deepinv/physics/tomography.py` (the `Tomography` operator, its angle
    construction and the fan-beam adjoint precondition).

Real tensors are modelled over ℚ where the relevant computations are exact
rational arithmetic, and over ℝ where square roots or cosines occur (the FFT
inside `dct1`, normalizations).  Machine floating point is idealized as exact
arithmetic; the claims under study are stated "up to numerical tolerance" and
are settled at the level of exact linear algebra.
-/

/-! ### EPLL, `src/deepinv/models/epll.py`

Images with batch size 1 and a single channel are modelled as flattened lists
of rationals of length `N * M` (row-major, like `tensor.reshape(-1)`).  A batch
of images is a list of such flattened images. -/

/-- The default splitting-parameter schedule of `EPLL.reconstruction`
(`epll.py` lines 55-57): `betas = [beta / sigma_sq for beta in [1., 4., 8., 16., 32.]]`. -/
def defaultBetas (sigma_sq : ℚ) : List ℚ :=
  ([1, 4, 8, 16, 32] : List ℚ).map (fun c => c / sigma_sq)

/-- Modelled from the spec: `patch_extractor` (imported from `deepinv.utils`, whose
source is not under `src/`) views the image as its overlapping `p x p` patches with
stride 1, indexed by a linear patch index `i`; each patch position maps to the
deterministic row/column offset `(i / (M - p + 1), i % (M - p + 1))`, and
`linear_inds` holds the flattened pixel indices covered by the patch (row-major). -/
def patchInds (M p i : ℕ) : List ℕ :=
  let npc := M - p + 1
  let r := i / npc
  let c := i % npc
  (List.range p).flatMap (fun dr => (List.range p).map (fun dc => (r + dr) * M + (c + dc)))

/-- The values of the image `x` at the pixel positions of patch `i`
(the rows of `patches` returned by `patch_extractor`). -/
def extractPatch (x : List ℚ) (M p i : ℕ) : List ℚ :=
  (patchInds M p i).map (fun j => x.getD j 0)

/-- Matrix-vector product for matrices given as lists of rows
(the per-patch `torch.bmm(estimation_matrices_k_star, patches[:,:,None])`
of `epll.py` line 97). -/
def matVec (A : List (List ℚ)) (v : List ℚ) : List ℚ :=
  A.map (fun row => (List.zipWith (· * ·) row v).sum)

/-- Modelled from the spec: the interface of `GaussianMixtureModel` (file `gmm.py`,
not under `src/`) as used by `EPLL._reconstruction_step`: `classify` assigns each
patch its most likely mixture component under the regularized covariance
(`GMM.classify(patches, cov_regularization=True)`), and `estMat k` is the
component estimation matrix `(GMM.get_cov_inv_reg() @ GMM.get_cov())[k]`
after `GMM.set_cov_reg(1/beta)`. -/
structure GMMIface where
  K : ℕ
  classify : List ℚ → Fin K
  estMat : Fin K → List (List ℚ)

/-- In-place advanced-index assignment `t[inds] += vals` of PyTorch (`epll.py`
lines 100-101): the values `t[inds]` are gathered from the pre-update tensor,
`vals` is added, and the result is scattered back with `accumulate=False`
semantics, so when `inds` holds duplicate positions only one of the writes
survives (sequentially, the last one in flattened index order; every write reads
the pre-update state). -/
def gatherAddScatter (t : List ℚ) (inds : List ℕ) (vals : List ℚ) : List ℚ :=
  (List.zipWith (fun i v => (i, t.getD i 0 + v)) inds vals).foldl
    (fun acc iv => acc.set iv.1 iv.2) t

/-- One pass of the body of the batching loop of `EPLL._reconstruction_step`
(lines 84-103): extract the chunk of patches `[ind, ind + n)`, classify each patch,
apply the selected estimation matrix, and return the flattened scatter indices
(`linear_inds`) together with the flattened patch estimates. -/
def chunkEstimates (g : GMMIface) (x : List ℚ) (M p ind n : ℕ) : List ℕ × List ℚ :=
  let pinds := (List.range n).map (fun j => ind + j)
  (pinds.flatMap (fun i => patchInds M p i),
   pinds.flatMap (fun i => matVec (g.estMat (g.classify (extractPatch x M p i))) (extractPatch x M p i)))

/-- The `while ind < total_patch_number` loop of `EPLL._reconstruction_step`
(lines 84-103), accumulating `x_tilde_flattened` and `patch_multiplicities`.
Each iteration advances `ind` by `n_patches = min batch (total - ind)`, which is
at least 1 whenever `batch >= 1` and `ind < total`, so fuel `total` always
suffices; the fuel-0 case is unreachable under the preconditions of the claims
(in the source a `batch_size` of 0 would loop forever). -/
def accumGo (g : GMMIface) (x : List ℚ) (M p total batch : ℕ) :
    ℕ → ℕ → List ℚ × List ℚ → List ℚ × List ℚ
  | 0, _, acc => acc
  | fuel + 1, ind, acc =>
    if ind < total then
      let n := min batch (total - ind)
      let iv := chunkEstimates g x M p ind n
      accumGo g x M p total batch fuel (ind + n)
        (gatherAddScatter acc.1 iv.1 iv.2,
         gatherAddScatter acc.2 iv.1 (iv.1.map (fun _ => (1 : ℚ))))
    else acc

/-- The patch-consensus image `x_tilde` computed by `EPLL._reconstruction_step`
(lines 67-104): clip `batch_size` (`-1` or larger than the total patch count
means all patches at once), run the batching loop from zero-initialized
accumulators, and divide the accumulated estimates by the patch multiplicities.
A pixel covered by no patch divides zero by zero (`0` in ℚ, `nan` in Python). -/
def xTilde (g : GMMIface) (x : List ℚ) (N M p : ℕ) (batch_size : ℤ) : List ℚ :=
  let total := (N - p + 1) * (M - p + 1)
  let b : ℕ := if batch_size = -1 ∨ (total : ℤ) < batch_size then total else batch_size.toNat
  let acc := accumGo g x M p total b total 0
    (List.replicate x.length 0, List.replicate x.length 0)
  List.zipWith (· / ·) acc.1 acc.2

/-- A linear forward operator as consumed by `EPLL.reconstruction`: the `physics`
argument must provide `physics.A` and `physics.A_adjoint` on flattened tensors. -/
structure PhysicsOp where
  A : List ℚ → List ℚ
  A_adjoint : List ℚ → List ℚ

/-- One call of `EPLL._reconstruction_step` (lines 67-108).  The step computes
`x_tilde` and the right-hand side `Aty + beta*sigma_sq*x_tilde`; line 107 then
evaluates `deepinv.optim.utils.conjugate_gradient`, but the module `epll.py`
never binds the name `deepinv` (its imports are `torch`, `torch.nn`,
`from .gmm import ...` and `from deepinv.utils import patch_extractor`, none of
which bind `deepinv`), so the step raises `NameError` at that line. -/
def reconStep (g : GMMIface) (Aty x : List ℚ) (sigma_sq beta : ℚ) (N M p : ℕ)
    (batch_size : ℤ) : Except String (List ℚ) :=
  let xt := xTilde g x N M p batch_size
  let _rhs := List.zipWith (· + ·) Aty (xt.map (fun v => beta * sigma_sq * v))
  Except.error ("NameError: name deepinv is not defined")

/-- The EPLL module state relevant to `reconstruction`: the patch size and the
Gaussian mixture (interface). -/
structure EPLLModel where
  patch_size : ℕ
  gmm : GMMIface

/-- The body of `EPLL.reconstruction` (`epll.py` lines 43-66), with Python call
binding made explicit: `sigma_sq` and `physics` are required positional
parameters without defaults, so a call that omits them raises `TypeError` before
the body runs; these two arguments are therefore modelled as `Option`s checked on
entry.  For batch size `> 1` the code recurses per sample via
`self.reconstruction(y[i:i+1], x_init[i:i+1], betas=betas, batch_size=batch_size)`
(line 60), which passes `betas` and `batch_size` but omits `sigma_sq` and
`physics` (modelled by passing `none` for both); the per-sample results would be
concatenated along the batch dimension (`torch.cat(..., 0)`).  The recursion is
driven by fuel: every recursive call has batch size 1, so fuel `y.length`
always suffices and the fuel-0 branch is unreachable. -/
def reconstructionF (model : EPLLModel) (N M : ℕ) :
    ℕ → List (List ℚ) → List (List ℚ) → Option ℚ → Option PhysicsOp →
    Option (List ℚ) → ℤ → Except String (List (List ℚ))
  | 0, _, _, _, _, _, _ => Except.error ("unreachable: fuel exhausted")
  | fuel + 1, y, x_init, sigma_sq?, physics?, betas?, batch_size =>
    match sigma_sq?, physics? with
    | some sigma_sq, some P =>
      let betas := betas?.getD (defaultBetas sigma_sq)
      if 1 < y.length then
        ((List.range y.length).mapM (fun i =>
          reconstructionF model N M fuel [y.getD i []] [x_init.getD i []]
            none none (some betas) batch_size)).map List.flatten
      else
        let x0 := x_init.getD 0 []
        let Aty := P.A_adjoint (y.getD 0 [])
        (betas.foldlM (fun x beta =>
          reconStep model.gmm Aty x sigma_sq beta N M model.patch_size batch_size) x0).map
          (fun x => [x])
    | _, _ =>
      Except.error ("TypeError: reconstruction() missing 2 required positional arguments: sigma_sq and physics")

/-- `EPLL.reconstruction(y, x_init, sigma_sq, physics, betas, batch_size)` on a
batch `y` of flattened samples (shape metadata `N`, `M` passed explicitly). -/
def reconstruction (model : EPLLModel) (N M : ℕ) (y x_init : List (List ℚ))
    (sigma_sq? : Option ℚ) (physics? : Option PhysicsOp) (betas? : Option (List ℚ))
    (batch_size : ℤ) : Except String (List (List ℚ)) :=
  reconstructionF model N M y.length y x_init sigma_sq? physics? betas? batch_size

/-- A concrete physics operator (identity forward and adjoint) for evaluations. -/
def idPhysics : PhysicsOp := ⟨id, id⟩

/-- A concrete one-component mixture interface: `estMat` is `(1/8) * J` with `J`
the all-ones 4x4 matrix.  This is realizable: `(1/8) * J` equals
`(Sigma + (1/beta) I)⁻¹ Sigma` for the positive semi-definite patch covariance
`Sigma = (1/4) * J` and `beta = 1`. -/
def gmmOneJ : GMMIface where
  K := 1
  classify := fun _ => ⟨0, Nat.one_pos⟩
  estMat := fun _ =>
    [[1/8, 1/8, 1/8, 1/8], [1/8, 1/8, 1/8, 1/8], [1/8, 1/8, 1/8, 1/8], [1/8, 1/8, 1/8, 1/8]]

/-- A concrete 2x3 test image, flattened row-major. -/
def xC2 : List ℚ := [1, 2, 3, 4, 5, 6]

/-! ### Compressed sensing, `src/deepinv/diffops/physics/compressed_sensing.py`

The `hadamard` transform is embedded on lists of reals; its butterfly loop
(lines 17-19) slices the row dimension into even/odd rows and concatenates
pairwise sums and differences along the last dimension. -/

/-- One iteration of the butterfly loop of `hadamard` (line 19): row `i` of the
result is `(rows[2i] + rows[2i+1]) ++ (rows[2i] - rows[2i+1])` (slicing
`x[..., ::2, :]` and `x[..., 1::2, :]` along the row dimension and concatenating
sum and difference along the last dimension).  An odd row count never occurs for
power-of-two inputs. -/
def hadRows : List (List ℝ) → List (List ℝ)
  | r1 :: r2 :: rest =>
    (List.zipWith (· + ·) r1 r2 ++ List.zipWith (· - ·) r1 r2) :: hadRows rest
  | _ => []

/-- The `for d in range(m)[::-1]` loop of `hadamard`: `m` butterfly iterations
(the loop variable `d` is unused in the body). -/
def hadIter : ℕ → List (List ℝ) → List (List ℝ)
  | 0, rs => rs
  | t + 1, rs => hadIter t (hadRows rs)

/-- The unnormalized Hadamard product `H_n @ u` computed by `hadamard`
(lines 14-20): start from `u[..., np.newaxis]` (each entry its own row), run
`m = int(np.log2(n))` butterfly iterations, and squeeze the row dimension. -/
def hadRaw (u : List ℝ) : List ℝ :=
  (hadIter (Nat.log2 u.length) (u.map (fun a => [a]))).headD []

/-- The normalization factor `2 ** (m / 2)` of `hadamard` (line 20). -/
noncomputable def normFactor (m : ℕ) : ℝ := 2 ^ ((m : ℝ) / 2)

/-- The normalized Hadamard transform, `hadamard(u, normalize=True)`:
the butterfly product divided by `2 ** (m / 2)` where `m = log2(n)`. -/
noncomputable def hadNorm (u : List ℝ) : List ℝ :=
  (hadRaw u).map (fun a => a / normFactor (Nat.log2 u.length))

/-- The full `hadamard(u, normalize)` function including its precondition
(lines 14-20): `m = int(np.log2(n))` (modelled by `Nat.log2`, the same floor
base-2 logarithm for `n >= 1`) and `assert n == 1 << m` fail (modelled as an
`AssertionError` value) whenever the last-dimension length is not a power of
two, before any computation on the data; whichever integer `m` the float
rounding produces, `1 << m` is a power of two, so the assertion can never
accept a non-power-of-two length.  For `n = 0` the Python source fails fast at
the same line with `OverflowError` (from `int(-inf)`), modelled as the same
error value. -/
noncomputable def hadamardChecked (u : List ℝ) (normalize : Bool) : Except String (List ℝ) :=
  let m := Nat.log2 u.length
  if u.length = 1 <<< m then
    Except.ok (if normalize then hadNorm u else hadRaw u)
  else Except.error ("AssertionError: n must be a power of 2")

/-! `dct1` (lines 23-35) and the fast (SORS) mode of `CompressedSensing`.
Vectors are modelled as functions `ℕ → ℝ` read on `[0, n)`; `dct1` mirror-extends
the signal to length `2*(n-1)`, takes the real part of the FFT
(`torch.view_as_real(torch.fft.rfft(x))[..., 0]`, i.e. the cosine sum), and
divides by `sqrt(2*(n-1))`. -/

/-- The mirror extension `torch.cat([x, x.flip([1])[:, 1:-1]], dim=1)` of `dct1`
(line 32): position `j < n` holds `x j`, position `n <= j < 2*(n-1)` holds
`x (2*(n-1) - j)`. -/
def dct1ext (n : ℕ) (x : ℕ → ℝ) (j : ℕ) : ℝ :=
  if j < n then x j else x (2 * (n - 1) - j)

/-- `dct1(x)` at output index `k`: the real part of the length-`2*(n-1)` DFT of
the mirror-extended signal, `sum_j ext(x)_j * cos(2*pi*j*k / (2*(n-1)))`,
divided by `sqrt(2*(n-1))` (lines 32-35). -/
noncomputable def dct1 (n : ℕ) (x : ℕ → ℝ) (k : ℕ) : ℝ :=
  (∑ j in Finset.range (2 * (n - 1)),
      dct1ext n x j * Real.cos (2 * Real.pi * (j : ℝ) * (k : ℝ) / ((2 * (n - 1) : ℕ) : ℝ))) /
    Real.sqrt ((2 * (n - 1) : ℕ) : ℝ)

/-- The zero-fill `y2 = zeros(n); y2[:, mask] = y` of `CompressedSensing.A_adjoint`
in fast mode (lines 120-121): position `j` receives the measurement whose sorted
mask position `sel i` equals `j` (the mask positions `sel 0 < sel 1 < ...` are
distinct, so at most one summand is non-zero). -/
def zeroFill (m : ℕ) (sel : ℕ → ℕ) (y : ℕ → ℝ) (j : ℕ) : ℝ :=
  ∑ i in Finset.range m, if sel i = j then y i else 0

/-- Fast-mode forward `CompressedSensing.A` (line 98): `y = dct1(x * D)[:, mask]`,
with `D` the random sign diagonal and `sel i` the `i`-th selected mask position. -/
noncomputable def fastA (n : ℕ) (D : ℕ → ℝ) (sel : ℕ → ℕ) (x : ℕ → ℝ) (i : ℕ) : ℝ :=
  dct1 n (fun j => x j * D j) (sel i)

/-- Fast-mode adjoint `CompressedSensing.A_adjoint` (lines 119-122):
`x = dct1(zero_fill(y)) * D`. -/
noncomputable def fastAdjoint (n m : ℕ) (D : ℕ → ℝ) (sel : ℕ → ℕ) (y : ℕ → ℝ) (j : ℕ) : ℝ :=
  dct1 n (zeroFill m sel y) j * D j

/-- Euclidean inner product of length-`k` vectors (`v.flatten().T @ w.flatten()`
in `adjointness_test`, lines 171-190). -/
def dotR (k : ℕ) (v w : ℕ → ℝ) : ℝ := ∑ i in Finset.range k, v i * w i

/-- Dense-mode forward `CompressedSensing.A` (line 101):
`y = torch.einsum('in, mn->im', x, A)`, i.e. per sample `y = A @ x`. -/
def denseA (m n : ℕ) (A : Matrix (Fin m) (Fin n) ℚ) (x : Fin n → ℚ) : Fin m → ℚ :=
  A.mulVec x

/-- Dense-mode pseudo-inverse `CompressedSensing.A_dagger` (lines 126-138):
`x = torch.einsum('im, nm->in', y, A_dagger)`, i.e. per sample `x = A_dagger @ y`,
where `A_dagger = np.linalg.pinv(A)` was computed once at construction (line 82). -/
def denseDagger (m n : ℕ) (Adag : Matrix (Fin n) (Fin m) ℚ) (y : Fin m → ℚ) : Fin n → ℚ :=
  Adag.mulVec y

/-! `CompressedSensing.power_method` (lines 140-169).  The iterate `x` is a
vector of dimension `d` (modelled as `ℕ → ℝ` read on `[0, d)`); `zold` starts as
`torch.zeros_like(x)` (a vector) and is a scalar after the first assignment
`zold = z`, which is modelled as `Option ℝ` (`none` for the initial zero
vector). -/

/-- Euclidean norm `torch.norm(x)` of a length-`d` vector. -/
noncomputable def norm2 (d : ℕ) (x : ℕ → ℝ) : ℝ :=
  Real.sqrt (∑ i in Finset.range d, x i ^ 2)

/-- The convergence measure `rel_var = torch.norm(z - zold)` of `power_method`
(line 162): against the initial zero vector the scalar `z` broadcasts to a
length-`d` vector, giving `sqrt(d * z^2)`; against a previous scalar it is
`sqrt((z - zold)^2) = |z - zold|`. -/
noncomputable def pmRelVar (d : ℕ) (z : ℝ) : Option ℝ → ℝ
  | none => Real.sqrt (∑ _i in Finset.range d, z ^ 2)
  | some zold => Real.sqrt ((z - zold) ^ 2)

/-- The `for it in range(max_iter)` loop of `power_method` (lines 157-167):
compute `y = At(A(x))` and the Rayleigh quotient `z = <x, y> / ||x||^2`; the body
exits early only when `rel_var < tol and verbose` (line 163), otherwise it
updates `zold = z`, `x = y / ||y||` and continues; after the final iteration the
last computed `z` (held in `zold`) is returned.  With `max_iter = 0` the Python
source would raise `NameError` (`z` unbound); that case is modelled as `0`. -/
noncomputable def pmLoop (d : ℕ) (B : (ℕ → ℝ) → (ℕ → ℝ)) (tol : ℝ) (verbose : Bool) :
    ℕ → (ℕ → ℝ) → Option ℝ → ℝ
  | 0, _, zold => zold.getD 0
  | fuel + 1, x, zold =>
    let y := B x
    let z := dotR d x y / norm2 d x ^ 2
    if pmRelVar d z zold < tol ∧ verbose = true then z
    else pmLoop d B tol verbose fuel (fun i => y i / norm2 d y) (some z)

/-- `CompressedSensing.power_method(x0, max_iter, tol, verbose)` (lines 140-169):
the start vector is a random draw `xr` (line 155, `torch.randn_like(x0)`; the
values of `x0` are unused) normalized to unit norm; the loop is driven by the
operator `x -> A_adjoint(A(x))`. -/
noncomputable def power_method (d : ℕ) (A At : (ℕ → ℝ) → (ℕ → ℝ)) (xr : ℕ → ℝ)
    (max_iter : ℕ) (tol : ℝ) (verbose : Bool) : ℝ :=
  pmLoop d (fun v => At (A v)) tol verbose max_iter (fun i => xr i / norm2 d xr) none

/-! ### Tomography, `src/deepinv/physics/tomography.py` -/

/-- `torch.linspace(a, b, steps)`: `steps` equispaced values from `a` to `b`
inclusive (a single value `a` when `steps = 1`). -/
def linspace (a b : ℚ) (steps : ℕ) : List ℚ :=
  if steps = 1 then [a]
  else (List.range steps).map (fun (i : ℕ) => a + (b - a) * (i : ℚ) / ((steps : ℚ) - 1))

/-- The projection angles built by `Tomography.__init__` when `angles` is a
number `k` (lines 92-98): `torch.linspace(0, 180, steps=k+1)[:-1]`. -/
def tomoAngles (k : ℕ) : List ℚ :=
  (linspace 0 180 (k + 1)).dropLast

/-- The `Tomography` state relevant to the lazy image-width resolution:
the `fan_beam` flag and the (possibly unresolved) `img_width`. -/
structure TomoState where
  fan_beam : Bool
  img_width : Option ℕ

/-- An image input: its last-dimension size (`x.shape[-1]`) and its pixels. -/
structure TomoImage where
  width : ℕ
  pix : ℕ → ℕ → ℝ

/-- `Tomography.__init__(angles, img_width, ..., fan_beam, ...)`: records the
fan-beam flag and the (optional) image width. -/
def tomoInit (fan_beam : Bool) (img_width : Option ℕ) : TomoState :=
  ⟨fan_beam, img_width⟩

/-- `Tomography.A(x)` (lines 126-129): if `img_width` is `None` it is set to
`x.shape[-1]`, then the Radon transform is applied.  The Radon projection itself
lives in `deepinv.physics.functional` (not under `src/`) and is passed in as
`radonF`. -/
def tomoA (radonF : TomoImage → ℕ → ℝ) (st : TomoState) (x : TomoImage) :
    TomoState × (ℕ → ℝ) :=
  ({ st with img_width := some (st.img_width.getD x.width) }, radonF x)

/-- `Tomography.A_adjoint(y)` (lines 138-149): in fan-beam mode it asserts that
`img_width` is resolved (otherwise `AssertionError` with the message naming the
missing image size) and applies the numerically constructed adjoint of the
forward map (`deepinv.physics.adjoint_function`, not under `src/`, passed in as
`adjF` and given the resolved width); in parallel-beam mode it applies the
unfiltered inverse Radon transform (`iradonNF`). -/
def tomoAAdjoint (adjF : ℕ → (ℕ → ℝ) → TomoImage) (iradonNF : (ℕ → ℝ) → TomoImage)
    (st : TomoState) (y : ℕ → ℝ) : Except String TomoImage :=
  if st.fan_beam then
    match st.img_width with
    | none =>
      Except.error
        ("AssertionError: Image size unknown. Apply forward operator or add it for initialization.")
    | some w => Except.ok (adjF w y)
  else Except.ok (iradonNF y)

/-! ### Theorems about EPLL -/

/-- C1: for a measurement batch of size 2, `EPLL.reconstruction` does not return
the concatenation of per-sample reconstructions: the per-sample recursive call
`self.reconstruction(y[i:i+1], x_init[i:i+1], betas=betas, batch_size=batch_size)`
omits the required positional arguments `sigma_sq` and `physics` and therefore
fails with a `TypeError` for lack of required arguments, contrary to the claim
that this call succeeds (evaluated here on a concrete batch of two one-pixel
samples with `sigma_sq = 1`, the identity physics, default betas and
`batch_size = -1`). -/
theorem epll_reconstruction_batch_two_missing_args :
    reconstruction ⟨2, gmmOneJ⟩ 1 1 [[1], [2]] [[1], [2]] (some 1) (some idPhysics) none (-1) =
      Except.error
        ("TypeError: reconstruction() missing 2 required positional arguments: sigma_sq and physics") :=
  rfl

/-- C2: the output of the patch-accumulation step of `EPLL._reconstruction_step`
is not independent of `batch_size`: on the 2x3 image `[1,2,3,4,5,6]` with patch
size 2 (two overlapping patches) and the one-component mixture `gmmOneJ`, the
consensus image `x_tilde` computed with `batch_size = 1` differs from the one
computed with `batch_size = -1` (the two outputs disagree at the overlap pixels
1 and 4: `7/4` against `2`), because the scatter `x_tilde_flattened[linear_inds]
+= patch_estimates` collapses duplicate pixel indices within a single batch
(PyTorch advanced indexing does not accumulate), while separate batches do
accumulate across loop iterations. -/
theorem epll_xtilde_batch_size_changes_output :
    xTilde gmmOneJ xC2 2 3 2 1 = [3/2, 7/4, 2, 3/2, 7/4, 2] ∧
      xTilde gmmOneJ xC2 2 3 2 (-1) = [3/2, 2, 2, 3/2, 2, 2] := by
  constructor
  · simp only [xTilde, accumGo, chunkEstimates, patchInds, extractPatch, matVec,
      gatherAddScatter, gmmOneJ, xC2]
    norm_num [List.set, List.range_succ]
  · simp only [xTilde, accumGo, chunkEstimates, patchInds, extractPatch, matVec,
      gatherAddScatter, gmmOneJ, xC2]
    norm_num [List.set, List.range_succ]

/-- C6: with `sigma_sq = 2` and `betas = None`, the default splitting schedule
used by `EPLL.reconstruction` is `[0.5, 2.0, 4.0, 8.0, 16.0]`, i.e. the constants
`[1, 4, 8, 16, 32]` each divided by `sigma_sq`, in that order; passing the
schedule `defaultBetas 2` explicitly yields the same reconstruction as passing
no schedule at all. -/
theorem epll_default_beta_schedule :
    (defaultBetas 2 = [1/2, 2, 4, 8, 16] ∧
      defaultBetas 2 = ([1, 4, 8, 16, 32] : List ℚ).map (fun c => c / 2)) ∧
    ∀ (model : EPLLModel) (N M : ℕ) (y x_init : List (List ℚ)) (P : PhysicsOp) (bs : ℤ),
      reconstruction model N M y x_init (some 2) (some P) none bs =
        reconstruction model N M y x_init (some 2) (some P) (some (defaultBetas 2)) bs := by
  refine ⟨⟨by norm_num [defaultBetas], by norm_num [defaultBetas]⟩, ?_⟩
  intro model N M y x_init P bs
  unfold reconstruction
  cases y.length with
  | zero => rfl
  | succ n => simp [reconstructionF]

/-! ### Helper lemmas -/

lemma log2_two : Nat.log2 2 = 1 := by simp [Nat.log2]

lemma log2_four : Nat.log2 4 = 2 := by simp [Nat.log2]

lemma log2_eight : Nat.log2 8 = 3 := by simp [Nat.log2]

lemma log2_sixteen : Nat.log2 16 = 4 := by simp [Nat.log2]

lemma normFactor_mul_self (m : ℕ) : normFactor m * normFactor m = 2 ^ m := by
  unfold normFactor
  rw [← Real.rpow_add (by norm_num : (0:ℝ) < 2)]
  rw [show (m : ℝ) / 2 + (m : ℝ) / 2 = ((m : ℕ) : ℝ) by ring]
  exact Real.rpow_natCast 2 m

lemma pmLoop_tol_irrelevant (d : ℕ) (B : (ℕ → ℝ) → (ℕ → ℝ)) (tol tol2 : ℝ) :
    ∀ (fuel : ℕ) (x : ℕ → ℝ) (zold : Option ℝ),
      pmLoop d B tol false fuel x zold = pmLoop d B tol2 false fuel x zold := by
  have hcond : ∀ P : Prop, ¬(P ∧ false = true) := by
    rintro P ⟨-, h⟩
    simp at h
  intro fuel
  induction fuel with
  | zero => intro x zold; rfl
  | succ n ih =>
    intro x zold
    simp only [pmLoop]
    rw [if_neg (hcond _), if_neg (hcond _)]
    exact ih _ _

/-! ### Theorems about the fast transforms and `CompressedSensing` -/

/-- C7: for every input length `n` in 2, 4, 8, 16, `hadamard(u, normalize=True)`
returns the exact Hadamard-matrix product divided by `2^(m/2)` with `m = log2 n`
(the `ok` branch of the checked function), and applying the normalized transform
twice returns the original vector exactly: the normalized transform is
self-inverse. -/
theorem hadamard_normalized_self_inverse :
    (∀ u : List ℝ, u.length = 2 →
      hadamardChecked u true = Except.ok (hadNorm u) ∧ hadNorm (hadNorm u) = u) ∧
    (∀ u : List ℝ, u.length = 4 →
      hadamardChecked u true = Except.ok (hadNorm u) ∧ hadNorm (hadNorm u) = u) ∧
    (∀ u : List ℝ, u.length = 8 →
      hadamardChecked u true = Except.ok (hadNorm u) ∧ hadNorm (hadNorm u) = u) ∧
    (∀ u : List ℝ, u.length = 16 →
      hadamardChecked u true = Except.ok (hadNorm u) ∧ hadNorm (hadNorm u) = u) := by
  refine ⟨?_, ?_, ?_, ?_⟩
  · intro u hu
    match u, hu with
    | [a, b], _ =>
      constructor
      · unfold hadamardChecked
        simp only [List.length_cons, List.length_nil]
        norm_num [log2_two, show (1 <<< 1 : ℕ) = 2 from by decide]
      · have hc := normFactor_mul_self 1
        simp [hadNorm, hadRaw, hadIter, hadRows, log2_two]
        simp only [div_add_div_same, div_sub_div_same, div_div, hc]
        norm_num
  · intro u hu
    match u, hu with
    | [a, b, c, d], _ =>
      constructor
      · unfold hadamardChecked
        simp only [List.length_cons, List.length_nil]
        norm_num [log2_four, show (1 <<< 2 : ℕ) = 4 from by decide]
      · have hc := normFactor_mul_self 2
        simp [hadNorm, hadRaw, hadIter, hadRows, log2_four]
        simp only [div_add_div_same, div_sub_div_same, div_div, hc]
        norm_num
        ring_nf
        norm_num
  · intro u hu
    match u, hu with
    | [a0, a1, a2, a3, a4, a5, a6, a7], _ =>
      constructor
      · unfold hadamardChecked
        simp only [List.length_cons, List.length_nil]
        norm_num [log2_eight, show (1 <<< 3 : ℕ) = 8 from by decide]
      · have hc := normFactor_mul_self 3
        simp [hadNorm, hadRaw, hadIter, hadRows, log2_eight]
        simp only [div_add_div_same, div_sub_div_same, div_div, hc]
        norm_num
        ring_nf
        norm_num
  · intro u hu
    match u, hu with
    | [a0, a1, a2, a3, a4, a5, a6, a7, a8, a9, a10, a11, a12, a13, a14, a15], _ =>
      constructor
      · unfold hadamardChecked
        simp only [List.length_cons, List.length_nil]
        norm_num [log2_sixteen, show (1 <<< 4 : ℕ) = 16 from by decide]
      · have hc := normFactor_mul_self 4
        simp [hadNorm, hadRaw, hadIter, hadRows, log2_sixteen]
        simp only [div_add_div_same, div_sub_div_same, div_div, hc]
        norm_num
        ring_nf
        norm_num

/-- Witness for C7: the length-2 case applied to the concrete vector `[1, 2]`. -/
theorem hadamard_normalized_self_inverse_witness :
    (([1, 2] : List ℝ).length = 2) ∧ hadNorm (hadNorm [1, 2]) = [1, 2] :=
  ⟨rfl, (hadamard_normalized_self_inverse.1 [1, 2] rfl).2⟩

/-- C8: for every input whose length is not a power of two (and any value of the
`normalize` flag), `hadamard` fails fast with its assertion-style precondition
violation `assert n == 1 << m` and never returns a result: `1 <<< m` is always a
power of two, so the guard can never accept such a length. -/
theorem hadamard_non_pow2_asserts :
    ∀ (u : List ℝ) (normalize : Bool), (¬∃ k : ℕ, u.length = 2 ^ k) →
      hadamardChecked u normalize = Except.error ("AssertionError: n must be a power of 2") := by
  intro u normalize h
  unfold hadamardChecked
  rw [if_neg]
  intro hEq
  exact h ⟨Nat.log2 u.length, by simpa [Nat.shiftLeft_eq] using hEq⟩

/-- Witness for C8: the length-3 input `[1, 2, 3]`. -/
theorem hadamard_non_pow2_asserts_witness :
    (¬∃ k : ℕ, ([1, 2, 3] : List ℝ).length = 2 ^ k) ∧
      hadamardChecked ([1, 2, 3] : List ℝ) true =
        Except.error ("AssertionError: n must be a power of 2") := by
  have h : ¬∃ k : ℕ, ([1, 2, 3] : List ℝ).length = 2 ^ k := by
    rintro ⟨k, hk⟩
    simp only [List.length_cons, List.length_nil] at hk
    match k, hk with
    | 0, hk => norm_num at hk
    | 1, hk => norm_num at hk
    | (k + 2), hk =>
      have h4 : 4 ≤ 2 ^ (k + 2) := by
        calc 4 = 2 ^ 2 := by norm_num
        _ ≤ 2 ^ (k + 2) := Nat.pow_le_pow_right (by norm_num) (by omega)
      omega
  exact ⟨h, hadamard_non_pow2_asserts [1, 2, 3] true h⟩

/-- C3 is refuted as stated: with `verbose=False` the tolerance-based early exit
of `CompressedSensing.power_method` never fires, because the loop break is
guarded by `if rel_var < tol and verbose` (line 163).  Consequently the result
of `power_method` with `verbose=False` is completely independent of `tol` (all
`max_iter` iterations always run), for every operator pair, start vector,
dimension and iteration cap: the tolerance is not a mandatory loop-exit
condition when `verbose=False`, contrary to the claim that both exits hold
regardless of the verbose flag. -/
theorem power_method_tol_exit_requires_verbose :
    ∀ (d : ℕ) (A At : (ℕ → ℝ) → (ℕ → ℝ)) (xr : ℕ → ℝ) (max_iter : ℕ) (tol tol2 : ℝ),
      power_method d A At xr max_iter tol false = power_method d A At xr max_iter tol2 false := by
  intro d A At xr max_iter tol tol2
  unfold power_method
  exact pmLoop_tol_irrelevant d _ tol tol2 max_iter _ none

/-- C4 is refuted for the fast (SORS) mode: with `n = 3` (image shape `(1,1,3)`),
`m = 3`, the all-plus-one sign pattern `D` and the full mask (all three rows
kept, `sel = id`), the adjointness identity fails on the probes `u = e_1`,
`v = e_0`: `<v, A(u)> = 1` but `<A_adjoint(v), u> = 1/2`, in exact arithmetic.
The `dct1` computed from the mirror-extended real FFT without edge scaling is
not a symmetric matrix, so reusing `dct1` (rather than its transpose) in
`A_adjoint` is not the exact mathematical adjoint of `A`. -/
theorem fast_cs_adjointness_fails :
    dotR 3 (fun i => if i = 0 then 1 else 0)
        (fastA 3 (fun _ => 1) (fun i => i) (fun i => if i = 1 then 1 else 0)) = 1 ∧
      dotR 3 (fastAdjoint 3 3 (fun _ => 1) (fun i => i) (fun i => if i = 0 then 1 else 0))
        (fun i => if i = 1 then 1 else 0) = 1 / 2 := by
  have hsqrt : Real.sqrt (4 : ℝ) = 2 := by
    rw [show (4 : ℝ) = 2 ^ 2 by norm_num, Real.sqrt_sq (by norm_num : (0:ℝ) ≤ 2)]
  constructor
  · unfold dotR fastA dct1 dct1ext
    norm_num [Finset.sum_range_succ, hsqrt]
  · unfold dotR fastAdjoint dct1 zeroFill dct1ext
    norm_num [Finset.sum_range_succ, hsqrt]

/-- C5: for the dense compressed-sensing operator, whose stored `A_dagger` is the
Moore-Penrose pseudo-inverse of the stored matrix `A` (so it satisfies the first
Penrose identity `A @ A_dagger @ A = A`), the pseudo-inverse is idempotent on the
range of `A`: `A(A_dagger(A(x))) = A(x)` for every input `x` of the image shape. -/
theorem dense_cs_dagger_idempotent_on_range :
    ∀ (m n : ℕ) (A : Matrix (Fin m) (Fin n) ℚ) (Adag : Matrix (Fin n) (Fin m) ℚ),
      A * Adag * A = A →
      ∀ x : Fin n → ℚ,
        denseA m n A (denseDagger m n Adag (denseA m n A x)) = denseA m n A x := by
  intro m n A Adag hp x
  unfold denseA denseDagger
  rw [Matrix.mulVec_mulVec, Matrix.mulVec_mulVec, hp]

/-- Witness for C5: the 1x1 matrix `A = [[2]]` with pseudo-inverse `[[1/2]]`
applied to `x = [3]`. -/
theorem dense_cs_dagger_idempotent_on_range_witness :
    (!![(2:ℚ)] * !![(1:ℚ)/2] * !![(2:ℚ)] = !![(2:ℚ)]) ∧
      denseA 1 1 !![(2:ℚ)] (denseDagger 1 1 !![(1:ℚ)/2] (denseA 1 1 !![(2:ℚ)] ![3])) =
        denseA 1 1 !![(2:ℚ)] ![3] := by
  have hp : !![(2:ℚ)] * !![(1:ℚ)/2] * !![(2:ℚ)] = !![(2:ℚ)] := by
    ext i j
    fin_cases i; fin_cases j
    simp [Matrix.mul_apply]
  exact ⟨hp, dense_cs_dagger_idempotent_on_range 1 1 _ _ hp ![3]⟩

/-! ### Theorems about `Tomography` -/

/-- C9: for a fan-beam `Tomography` operator constructed with `img_width = None`,
calling `A_adjoint` before any call to `A` fails with the assertion error naming
the missing image width; once `A` has been called (which resolves the width from
the input shape) or when the width was given at construction, `A_adjoint` does
not raise this error. -/
theorem tomography_fan_adjoint_width_guard :
    ∀ (radonF : TomoImage → ℕ → ℝ) (adjF : ℕ → (ℕ → ℝ) → TomoImage)
      (iradonNF : (ℕ → ℝ) → TomoImage) (y : ℕ → ℝ) (x : TomoImage) (w : ℕ),
      tomoAAdjoint adjF iradonNF (tomoInit true none) y =
        Except.error
          ("AssertionError: Image size unknown. Apply forward operator or add it for initialization.")
      ∧ tomoAAdjoint adjF iradonNF (tomoA radonF (tomoInit true none) x).1 y =
          Except.ok (adjF x.width y)
      ∧ tomoAAdjoint adjF iradonNF (tomoInit true (some w)) y = Except.ok (adjF w y) := by
  intro radonF adjF iradonNF y x w
  exact ⟨rfl, rfl, rfl⟩

/-- C10: when the `angles` argument of `Tomography` is a number `k`, the operator
uses exactly `k` projection angles, namely `torch.linspace(0, 180, steps=k+1)`
with the last element dropped, i.e. the `k` equispaced angles `180 * i / k` for
`i < k`, all lying in the half-open interval `[0, 180)` (not sampled up to 360
degrees as the in-code docstring states). -/
theorem tomography_int_angles :
    ∀ k : ℕ, (tomoAngles k).length = k ∧
      tomoAngles k = (List.range k).map (fun (i : ℕ) => 180 * (i : ℚ) / (k : ℚ)) ∧
      ∀ a ∈ tomoAngles k, 0 ≤ a ∧ a < 180 := by
  intro k
  match k with
  | 0 =>
    refine ⟨?_, ?_, ?_⟩ <;> simp [tomoAngles, linspace]
  | (k + 1) =>
    have hcast : ((k + 1 + 1 : ℕ) : ℚ) - 1 = (k : ℚ) + 1 := by push_cast; ring
    have hmap : tomoAngles (k + 1) =
        (List.range (k + 1)).map (fun (i : ℕ) => 180 * (i : ℚ) / ((k : ℚ) + 1)) := by
      unfold tomoAngles linspace
      rw [if_neg (by omega), List.range_succ, List.map_append]
      simp only [List.map_cons, List.map_nil, List.dropLast_concat]
      refine List.map_congr_left ?_
      intro i _hi
      rw [hcast]
      ring
    refine ⟨?_, ?_, ?_⟩
    · rw [hmap, List.length_map, List.length_range]
    · rw [hmap]
      refine List.map_congr_left ?_
      intro i _hi
      have : ((k + 1 : ℕ) : ℚ) = (k : ℚ) + 1 := by push_cast; ring
      rw [this]
    · intro a ha
      rw [hmap] at ha
      obtain ⟨i, hi, rfl⟩ := List.mem_map.mp ha
      rw [List.mem_range] at hi
      have hkpos : (0 : ℚ) < (k : ℚ) + 1 := by positivity
      constructor
      · positivity
      · rw [div_lt_iff₀ hkpos]
        have : (i : ℚ) < (k : ℚ) + 1 := by exact_mod_cast hi
        nlinarith

/-- Witness for C10: the membership bound applied at `k = 3` and the angle `120`
(the angle list is `[0, 60, 120]`). -/
theorem tomography_int_angles_witness :
    (tomoAngles 3).length = 3 ∧ ((0:ℚ) ≤ 120 ∧ (120:ℚ) < 180) := by
  have hlist : tomoAngles 3 = [0, 60, 120] := by
    norm_num [tomoAngles, linspace, List.range_succ]
  have hmem : (120 : ℚ) ∈ tomoAngles 3 := by
    rw [hlist]
    norm_num
  exact ⟨(tomography_int_angles 3).1, (tomography_int_angles 3).2.2 120 hmem⟩
